import Mathlib

/-!
Shallow embedding of the browser-side chess client (repository dashvsm).

The repository has two modules: the game view controller
(src/chess_app/static/js/game.js) and the lobby controller
(src/unnamed/part_000).  Both are thin DOM glue over an external
chess-rules library (the js Chess object) and a socket transport.

The rules library is external to the repository, so it is modelled as an
abstract structure of functions (Engine).  The controller functions are
translated from the source line by line; DOM writes become fields of
explicit state records, socket emissions become a returned event list.
DOM details not touched by any claim (player-status side texts, the
last-move and check square decorations, click listeners, scrolling) are
not modelled; each definition documents what it covers.
-/

namespace Dashvsm

/-- Player / side colour.  In the source the assigned colour is the string
"white" or "black" and the engine turn is the letter "w" or "b"; the
comparison `game.turn() !== playerColor[0]` identifies the two, so one
two-valued type is used for both. -/
inductive Color where
  | white
  | black
deriving DecidableEq

/-- A piece as returned by the engine `get` call: its colour and its
one-letter type tag (p, n, b, r, q, k). -/
structure Piece where
  color : Color
  type : String
deriving DecidableEq

/-- Abstract interface of the external chess-rules library (the js
Chess instance), with the operations game.js calls.  `move` takes the
from-square, to-square and promotion piece and returns the SAN notation
together with the successor position when the move is legal, and none
when it is rejected (the library does not mutate the position on a
rejected move).  `moves` returns the destination squares of the legal
moves from a square (the .to fields of the verbose move list).  `load`
replaces the position from a FEN string. -/
structure Engine (Pos : Type) where
  turn : Pos → Color
  get : Pos → String → Option Piece
  move : Pos → String → String → String → Option (String × Pos)
  isGameOver : Pos → Bool
  isCheckmate : Pos → Bool
  isDraw : Pos → Bool
  isStalemate : Pos → Bool
  fen : Pos → String
  history : Pos → List String
  moves : Pos → String → List String
  load : String → Pos

/-- One rendered board square: its identifier string, file, rank, shade,
whether it carries the selected mark, and the piece shown on it.  The
squares of a render are kept in the order the source appends them to the
board element. -/
structure SquareView where
  square : String
  file : String
  rank : Nat
  isLight : Bool
  selected : Bool
  piece : Option Piece
deriving DecidableEq

/-- The rendered board: the 64 squares in append order plus the squares
currently carrying the possible-move mark (added only by
highlightPossibleMoves, after a render).  The last-move and check
decorations of the source are presentational and not modelled. -/
structure View where
  squares : List SquareView
  possibleMoves : List String
deriving DecidableEq

/-- One row of the moves list panel: move number, white half-move and
black half-move (empty string when absent), as interpolated into the
row text by updateMovesList. -/
structure MoveRow where
  num : Nat
  white : String
  black : String
deriving DecidableEq

/-- A make_move socket emission: game id, SAN notation and FEN string,
as in the source `socket.emit` call. -/
structure MoveEvent where
  gameId : String
  san : String
  fen : String
deriving DecidableEq

/-- The module-level state of the game view controller plus the DOM
projections the claims are about: the engine position (game), the
assigned colour (playerColor), the selection cursor (selectedSquare),
the gameStatus text, the moves panel rows, and the rendered board. -/
structure GameState (Pos : Type) where
  game : Pos
  playerColor : Option Color
  selectedSquare : Option String
  statusText : String
  movesRows : List MoveRow
  view : View

/-- js: file.charCodeAt(0) on the one-character file strings of
renderBoard (the empty case never occurs for them). -/
def charCodeAt0 (s : String) : Nat :=
  match s.data with
  | [] => 0
  | c :: _ => c.toNat

/-- Source renderBoard: ranks = isFlipped ? [1..8].reverse() : [1..8].
The reversal is kept exactly as written. -/
def ranksFor (isFlipped : Bool) : List Nat :=
  if isFlipped then [1, 2, 3, 4, 5, 6, 7, 8].reverse else [1, 2, 3, 4, 5, 6, 7, 8]

/-- Source renderBoard: files = isFlipped ? [h..a].reverse() : [a..h].
The source reverses the already reversed list, which is kept exactly as
written. -/
def filesFor (isFlipped : Bool) : List String :=
  if isFlipped then ["h", "g", "f", "e", "d", "c", "b", "a"].reverse
  else ["a", "b", "c", "d", "e", "f", "g", "h"]

/-- Source renderBoard: clears the board element and appends, for each
rank of ranksFor and each file of filesFor, a square div whose
identifier is file ++ rank, whose shade is light when
(rank + charCode(file) - 96) is even, carrying the selected mark when it
equals the selection cursor and the piece the engine reports.  A fresh
render carries no possible-move marks.  The subsequent last-move and
check decorations are not modelled. -/
def renderBoard {Pos : Type} (eng : Engine Pos) (st : GameState Pos) : View :=
  let isFlipped : Bool := st.playerColor = some Color.black
  { squares :=
      (ranksFor isFlipped).flatMap (fun rank =>
        (filesFor isFlipped).map (fun file =>
          let square := file ++ toString rank
          { square := square
            file := file
            rank := rank
            isLight := (rank + charCodeAt0 file - 96) % 2 = 0
            selected := st.selectedSquare = some square
            piece := eng.get st.game square }))
    possibleMoves := [] }

/-- Source highlightPossibleMoves: adds the possible-move mark to the
destination square of every legal move from the given square. -/
def highlightPossibleMoves {Pos : Type} (eng : Engine Pos) (square : String)
    (st : GameState Pos) : GameState Pos :=
  { st with view :=
      { st.view with possibleMoves := st.view.possibleMoves ++ eng.moves st.game square } }

/-- Source updateGameStatus: the switch on the status string, writing the
gameStatus element text.  A status string with no case (for example
"resigned") leaves the text unchanged, exactly as the source switch
falls through with no default. -/
def updateGameStatus {Pos : Type} (eng : Engine Pos) (g : Pos) (status : String)
    (old : String) : String :=
  if status = "waiting" then "Ожидание соперника..."
  else if status = "active" then
    (if eng.turn g = Color.white then "Ход белых" else "Ход черных")
  else if status = "checkmate" then
    "Мат! Победили " ++ (if eng.turn g = Color.white then "черные" else "белые")
  else if status = "draw" then "Ничья"
  else if status = "stalemate" then "Пат"
  else if status = "disconnected" then "Соперник отключился"
  else old

/-- Source checkGameStatus: tests isCheckmate, then isDraw, then
isStalemate against the current position and writes the matching status;
when none holds the text is untouched. -/
def checkGameStatus {Pos : Type} (eng : Engine Pos) (g : Pos) (old : String) : String :=
  if eng.isCheckmate g then updateGameStatus eng g "checkmate" old
  else if eng.isDraw g then updateGameStatus eng g "draw" old
  else if eng.isStalemate g then updateGameStatus eng g "stalemate" old
  else old

/-- Helper of updateMovesList: the source for-loop over history with step
two, producing one row per iteration with number i/2+1, white half-move
history[i] and black half-move history[i+1] (empty string when absent,
matching the js fallback). -/
def movesRowsFrom : Nat → List String → List MoveRow
  | _, [] => []
  | n, [w] => [{ num := n, white := w, black := "" }]
  | n, w :: b :: rest => { num := n, white := w, black := b } :: movesRowsFrom (n + 1) rest

/-- Source updateMovesList: rebuilds the moves panel from the engine
history, pairing consecutive half-moves into numbered rows. -/
def updateMovesList (history : List String) : List MoveRow :=
  movesRowsFrom 1 history

/-- The half-moves a list of panel rows displays, in order: each row
shows its white half-move and, when non-empty, its black half-move. -/
def rowEntries (r : MoveRow) : List String :=
  r.white :: (if r.black = "" then [] else [r.black])

/-- All half-moves displayed by the moves panel, in order. -/
def panelEntries (rows : List MoveRow) : List String :=
  rows.flatMap rowEntries

/-- Source handleSquareClick, together with the module-bottom wrapper
around game.move (which, on an accepted move, first writes the active
status for the new position).  Returns the successor controller state
and the list of socket emissions of the click.  The updatePlayerStatus
calls touch only the two side texts, which are not modelled. -/
def handleSquareClick {Pos : Type} (eng : Engine Pos) (gid : String)
    (st : GameState Pos) (square : String) : GameState Pos × List MoveEvent :=
  match st.playerColor with
  | none => (st, [])
  | some pc =>
    if eng.turn st.game ≠ pc then (st, [])
    else if eng.isGameOver st.game then (st, [])
    else
      let piece := eng.get st.game square
      match st.selectedSquare with
      | some sel =>
        if sel = square then
          let st1 := { st with selectedSquare := none }
          ({ st1 with view := renderBoard eng st1 }, [])
        else
          match eng.move st.game sel square "q" with
          | some (san, p2) =>
            let stW := { st with game := p2
                                 statusText := updateGameStatus eng p2 "active" st.statusText }
            let ev : MoveEvent := { gameId := gid, san := san, fen := eng.fen p2 }
            let st1 := { stW with selectedSquare := none }
            let st2 := { st1 with view := renderBoard eng st1 }
            let st3 := { st2 with movesRows := updateMovesList (eng.history p2) }
            let st4 := { st3 with statusText := checkGameStatus eng p2 st3.statusText }
            let st5 := { st4 with statusText := updateGameStatus eng p2 "active" st4.statusText }
            (st5, [ev])
          | none =>
            let newSel : Option String :=
              match piece with
              | some p => if p.color = pc then some square else none
              | none => none
            let stA := { st with selectedSquare := newSel }
            let stB := { stA with view := renderBoard eng stA }
            (match newSel with
             | some s => highlightPossibleMoves eng s stB
             | none => stB, [])
      | none =>
        match piece with
        | some p =>
          if p.color = pc then
            let stA := { st with selectedSquare := some square }
            let stB := { stA with view := renderBoard eng stA }
            (highlightPossibleMoves eng square stB, [])
          else (st, [])
        | none => (st, [])

/-- Source socket handler game_info: load the FEN when present, record
the colour when present, write the status when present, then re-render.
The updatePlayerStatus call is not modelled. -/
def onGameInfo {Pos : Type} (eng : Engine Pos) (st : GameState Pos)
    (fen : Option String) (color : Option Color) (status : Option String) :
    GameState Pos :=
  let st1 := match fen with
    | some f => { st with game := eng.load f }
    | none => st
  let st2 := match color with
    | some c => { st1 with playerColor := some c }
    | none => st1
  let st3 := match status with
    | some s => { st2 with statusText := updateGameStatus eng st2.game s st2.statusText }
    | none => st2
  { st3 with view := renderBoard eng st3 }

/-- Source socket handler move_made: load the pushed FEN, re-render,
rebuild the moves panel, re-evaluate the terminal status. -/
def onMoveMade {Pos : Type} (eng : Engine Pos) (st : GameState Pos) (fen : String) :
    GameState Pos :=
  let st1 := { st with game := eng.load fen }
  let st2 := { st1 with view := renderBoard eng st1 }
  let st3 := { st2 with movesRows := updateMovesList (eng.history st1.game) }
  { st3 with statusText := checkGameStatus eng st3.game st3.statusText }

/-- Source resignBtn click handler: on a confirmed prompt it calls
updateGameStatus with the string "resigned"; nothing is emitted and no
other field is written. -/
def resignClick {Pos : Type} (eng : Engine Pos) (st : GameState Pos)
    (confirmed : Bool) : GameState Pos × List MoveEvent :=
  if confirmed then
    ({ st with statusText := updateGameStatus eng st.game "resigned" st.statusText }, [])
  else (st, [])

/-- The selection-cursor invariant of the specification: a non-null
cursor names a square occupied by a piece of the assigned colour while
the engine turn equals that colour. -/
def selectionInvariant {Pos : Type} (eng : Engine Pos) (st : GameState Pos) : Prop :=
  ∀ s, st.selectedSquare = some s →
    ∃ c, st.playerColor = some c ∧ eng.turn st.game = c ∧
      ∃ p, eng.get st.game s = some p ∧ p.color = c

/-- The lobby DOM after the game_created handler: the href and text of
the rendered link, whether the link container is still hidden, and the
navigation scheduled by setTimeout (target URL and delay in ms). -/
structure LobbyDom where
  linkHref : Option String
  linkText : Option String
  linkHidden : Bool
  scheduledNavUrl : Option String
  scheduledNavDelayMs : Option Nat
deriving DecidableEq

/-- Source lobby socket handler game_created: builds the URL
origin/game/id, renders the link with that href and text, unhides the
container, and schedules navigation to the same URL after 2000 ms. -/
def onGameCreated (origin : String) (gameId : String) : LobbyDom :=
  let url := origin ++ "/game/" ++ gameId
  { linkHref := some url
    linkText := some url
    linkHidden := false
    scheduledNavUrl := some url
    scheduledNavDelayMs := some 2000 }

/-- The outcome of a lobby join click: the navigation target when one is
set, and the alert message when one is raised. -/
structure JoinResult where
  navigateTo : Option String
  alertMsg : Option String
deriving DecidableEq

/-- The js String.prototype.trim builtin of the host language, modelled
as dropping whitespace characters from both ends of the character
sequence (it agrees with the js builtin on ASCII whitespace). -/
def jsTrim (s : String) : String :=
  { data := ((s.data.dropWhile Char.isWhitespace).reverse.dropWhile Char.isWhitespace).reverse }

/-- Source joinGameBtn click handler: trims the input; a non-empty
result navigates to /game/ followed by the trimmed text with no
validation, an empty result raises a blocking alert and does nothing
else. -/
def joinGameClick (input : String) : JoinResult :=
  let gameId := jsTrim input
  if gameId ≠ "" then { navigateTo := some ("/game/" ++ gameId), alertMsg := none }
  else { navigateTo := none, alertMsg := some "Введите ID игры" }

/-- The square identifiers of the 64 squares in the order the source
appends them when the assigned colour is not black: rank 1 first, files
a to h within a rank, square a1 first and h8 last, a8 the 57th. -/
def whiteRenderOrder : List String :=
  ["a1", "b1", "c1", "d1", "e1", "f1", "g1", "h1",
   "a2", "b2", "c2", "d2", "e2", "f2", "g2", "h2",
   "a3", "b3", "c3", "d3", "e3", "f3", "g3", "h3",
   "a4", "b4", "c4", "d4", "e4", "f4", "g4", "h4",
   "a5", "b5", "c5", "d5", "e5", "f5", "g5", "h5",
   "a6", "b6", "c6", "d6", "e6", "f6", "g6", "h6",
   "a7", "b7", "c7", "d7", "e7", "f7", "g7", "h7",
   "a8", "b8", "c8", "d8", "e8", "f8", "g8", "h8"]

/-- The square identifiers in the order the source appends them when the
assigned colour is black: rank 8 first, files a to h within a rank (the
file reversal in the source reverses an already reversed list), square
a8 first and h1 last. -/
def blackRenderOrder : List String :=
  ["a8", "b8", "c8", "d8", "e8", "f8", "g8", "h8",
   "a7", "b7", "c7", "d7", "e7", "f7", "g7", "h7",
   "a6", "b6", "c6", "d6", "e6", "f6", "g6", "h6",
   "a5", "b5", "c5", "d5", "e5", "f5", "g5", "h5",
   "a4", "b4", "c4", "d4", "e4", "f4", "g4", "h4",
   "a3", "b3", "c3", "d3", "e3", "f3", "g3", "h3",
   "a2", "b2", "c2", "d2", "e2", "f2", "g2", "h2",
   "a1", "b1", "c1", "d1", "e1", "f1", "g1", "h1"]

/-- A concrete engine over Nat positions, used to evaluate the
controller at explicit inputs.  Position 0 is a white-to-move position
with a white queen on e2, a white pawn on c2 and a black pawn on d7;
the only accepted move is e2 to e4, with SAN Qe4# and successor
position 1, which is checkmate.  Position 2 is classified as both a
draw and a stalemate.  Position 3 is a black-to-move position with no
pieces.  Loading the FEN string fenB yields position 3. -/
def toyEngine : Engine Nat where
  turn := fun p => if p = 0 then Color.white else Color.black
  get := fun p s =>
    if p = 0 then
      if s = "e2" then some { color := Color.white, type := "q" }
      else if s = "c2" then some { color := Color.white, type := "p" }
      else if s = "d7" then some { color := Color.black, type := "p" }
      else none
    else none
  move := fun p f t pr =>
    if p = 0 ∧ f = "e2" ∧ t = "e4" ∧ pr = "q" then some ("Qe4#", 1) else none
  isGameOver := fun p => p == 1
  isCheckmate := fun p => p == 1
  isDraw := fun p => p == 2
  isStalemate := fun p => p == 2
  fen := fun p => "fen" ++ toString p
  history := fun p => if p = 1 then ["Qe4#"] else []
  moves := fun p s => if p = 0 ∧ s = "c2" then ["c3", "c4"] else []
  load := fun s => if s = "fenB" then 3 else 0

/-- An empty board view, used as the initial view of the test states. -/
def emptyView : View :=
  { squares := [], possibleMoves := [] }

/-- Test state: toy position 0, white assigned, the queen square e2
selected. -/
def stSelected : GameState Nat :=
  { game := 0
    playerColor := some Color.white
    selectedSquare := some "e2"
    statusText := "Ход белых"
    movesRows := []
    view := emptyView }

/-- Test state: toy position 0, white assigned, no selection. -/
def stNoSel : GameState Nat :=
  { stSelected with selectedSquare := none }

/-- Test state: e2 selected while the toy position 3 has black to move,
as produced by a move_made push that replaces the position while the
selection is set. -/
def stWrongTurn : GameState Nat :=
  { stSelected with game := 3 }

/-- Appending one non-empty half-move to a history free of empty
half-moves appends exactly that half-move to what the moves panel
displays (the row pairing keeps every earlier entry in place). -/
theorem panelEntries_append : ∀ (n : Nat) (h : List String) (m : String),
    "" ∉ h → m ≠ "" →
    panelEntries (movesRowsFrom n (h ++ [m])) =
      panelEntries (movesRowsFrom n h) ++ [m]
  | _, [], m, _, hm => by
    simp [movesRowsFrom, panelEntries, rowEntries, hm]
  | _, [w], m, _, hm => by
    simp [movesRowsFrom, panelEntries, rowEntries, hm]
  | n, w :: b :: rest, m, hh, hm => by
    have hb : b ≠ "" := by
      intro hb
      exact hh (by simp [hb])
    have hrest : "" ∉ rest := by
      intro hmem
      exact hh (by simp [hmem])
    have ih := panelEntries_append (n + 1) rest m hrest hm
    simp only [panelEntries] at ih
    simp [movesRowsFrom, panelEntries, rowEntries, hb, ih]

/-- Test state: like stNoSel but with black as the assigned colour. -/
def stBlackView : GameState Nat :=
  { stNoSel with playerColor := some Color.black }

/-- C1: after the local player makes a move the rules engine reports as
checkmate, the post-move position is checkmate, yet the displayed
status text is the side-to-move label and not the checkmate label:
the success path of handleSquareClick calls checkGameStatus and then
unconditionally rewrites the text with the active status, so the
terminal label is overwritten.  This contradicts the claim and the
evident purpose of the checkGameStatus call. -/
theorem C1_checkmate_status_overwritten :
    toyEngine.isCheckmate (handleSquareClick toyEngine "g1" stSelected "e4").1.game = true ∧
    (handleSquareClick toyEngine "g1" stSelected "e4").1.statusText = "Ход черных" ∧
    "Ход черных" ≠ "Мат! Победили белые" :=
  ⟨by decide, by decide, by decide⟩

/-- C2 counterexample: with the assigned colour black, a8 is the first
of the 64 appended squares and h1 the last, so a8 does not render in
the bottom-right region; the claim says it renders last. -/
theorem C2_black_renders_a8_first :
    ((renderBoard toyEngine stBlackView).squares.map SquareView.square).head? = some "a8" ∧
    ((renderBoard toyEngine stBlackView).squares.map SquareView.square).getLast? = some "h1" ∧
    (renderBoard toyEngine stBlackView).squares.length = 64 := by
  decide

/-- C2 amended: for every render, the 64 squares are appended in
blackRenderOrder when the assigned colour is black (rank 8 / file a at
the top-left, a8 first, h1 last) and in whiteRenderOrder otherwise
(rank 1 / file a at the top-left, a1 first, h8 last, a8 the 57th); the
file reversal of the source is a double reverse, so files run a to h
for both colours. -/
theorem C2_render_order {Pos : Type} (eng : Engine Pos) (st : GameState Pos) :
    (renderBoard eng st).squares.map SquareView.square =
      if st.playerColor = some Color.black then blackRenderOrder else whiteRenderOrder := by
  obtain ⟨g, pc, sel, stx, mr, v⟩ := st
  cases pc with
  | none => rfl
  | some c =>
    cases c with
    | white => rfl
    | black => rfl

/-- Test state: like stSelected but with a stale moves panel, as left
by a game_info push that loads a FEN (resetting the library history)
without rebuilding the panel: the panel still shows a half-move e4
that is no longer in the engine history. -/
def stStalePanel : GameState Nat :=
  { stSelected with movesRows := updateMovesList ["e4"] }

/-- C3 counterexample: in the reachable stale-panel state the engine
accepts the click as the move Qe4#, yet the panel goes from displaying
the single entry e4 to displaying the single entry Qe4# — the rebuild
from the engine history drops the stale entry, so the accepted move
does not append exactly one entry to the move-history panel. -/
theorem C3_stale_panel_counterexample :
    toyEngine.move stStalePanel.game "e2" "e4" "q" = some ("Qe4#", 1) ∧
    panelEntries stStalePanel.movesRows = ["e4"] ∧
    panelEntries (handleSquareClick toyEngine "g1" stStalePanel "e4").1.movesRows =
      ["Qe4#"] ∧
    panelEntries (handleSquareClick toyEngine "g1" stStalePanel "e4").1.movesRows ≠
      panelEntries stStalePanel.movesRows ++ ["Qe4#"] := by
  decide

/-- C3 amended: a click that completes a move the rules engine accepts
(with queen promotion requested) clears the selection cursor, emits
exactly one move event carrying the SAN string and the FEN of the
post-move position, and adopts the post-move position; provided the
moves panel was in sync with the engine history before the click (the
panel is rebuilt wholesale from the history, so a desync left by a
game_info push that loads a FEN without rebuilding the panel is not
repaired by an append), it displays exactly one more half-move, the
new SAN appended. -/
theorem C3_accepted_move_effects {Pos : Type} (eng : Engine Pos) (gid : String)
    (st : GameState Pos) (c : Color) (S Q san : String) (p2 : Pos)
    (hc : st.playerColor = some c)
    (ht : eng.turn st.game = c)
    (hover : eng.isGameOver st.game = false)
    (hsel : st.selectedSquare = some S)
    (hne : S ≠ Q)
    (hmv : eng.move st.game S Q "q" = some (san, p2)) :
    (handleSquareClick eng gid st Q).1.selectedSquare = none ∧
    (handleSquareClick eng gid st Q).2 =
      [{ gameId := gid, san := san, fen := eng.fen p2 }] ∧
    (handleSquareClick eng gid st Q).1.game = p2 ∧
    (st.movesRows = updateMovesList (eng.history st.game) →
     eng.history p2 = eng.history st.game ++ [san] →
     "" ∉ eng.history st.game → san ≠ "" →
     panelEntries (handleSquareClick eng gid st Q).1.movesRows =
       panelEntries st.movesRows ++ [san]) := by
  have hcl : handleSquareClick eng gid st Q =
      ({ game := p2
         playerColor := st.playerColor
         selectedSquare := none
         statusText := updateGameStatus eng p2 "active"
           (checkGameStatus eng p2 (updateGameStatus eng p2 "active" st.statusText))
         movesRows := updateMovesList (eng.history p2)
         view := renderBoard eng
           { game := p2
             playerColor := st.playerColor
             selectedSquare := none
             statusText := updateGameStatus eng p2 "active" st.statusText
             movesRows := st.movesRows
             view := st.view } },
       [{ gameId := gid, san := san, fen := eng.fen p2 }]) := by
    simp only [handleSquareClick, hc, hsel, ht, hover, hmv, ne_eq, not_true_eq_false,
      if_false, Bool.false_eq_true, if_neg, if_pos]
    simp [hne]
  rw [hcl]
  refine ⟨rfl, rfl, rfl, ?_⟩
  intro hrows hhist hclean hsan
  simp only [updateMovesList] at hrows ⊢
  rw [hhist, hrows, panelEntries_append 1 (eng.history st.game) san hclean hsan]

/-- C3 witness: the toy engine accepts e2 to e4 in position 0, the
panel is in sync there, and the click shows all four effects. -/
theorem C3_accepted_move_effects_witness :
    (handleSquareClick toyEngine "g1" stSelected "e4").1.selectedSquare = none ∧
    (handleSquareClick toyEngine "g1" stSelected "e4").2 =
      [{ gameId := "g1", san := "Qe4#", fen := toyEngine.fen 1 }] ∧
    (handleSquareClick toyEngine "g1" stSelected "e4").1.game = 1 ∧
    panelEntries (handleSquareClick toyEngine "g1" stSelected "e4").1.movesRows =
      panelEntries stSelected.movesRows ++ ["Qe4#"] :=
  have h := C3_accepted_move_effects toyEngine "g1" stSelected Color.white "e2" "e4" "Qe4#" 1
    rfl rfl rfl rfl (by decide) rfl
  ⟨h.1, h.2.1, h.2.2.1, h.2.2.2 rfl rfl (by decide) (by decide)⟩

/-- C4 counterexample: a state whose selection cursor is set while the
engine turn is not the local colour (reachable because a move_made push
replaces the position without clearing the cursor): clicking the
selected square again is swallowed by the turn guard and the selection
is not cleared, against the claim. -/
theorem C4_wrong_turn_click_keeps_selection :
    stWrongTurn.selectedSquare = some "e2" ∧
    (handleSquareClick toyEngine "g1" stWrongTurn "e2").1.selectedSquare = some "e2" :=
  ⟨rfl, rfl⟩

/-- C4 amended: provided the click passes the entry guards (a colour is
assigned, the engine turn equals it, and the game is not over),
clicking the selected square again clears the selection, leaves no
possible-move marks, leaves the position unchanged and emits nothing;
otherwise the click is ignored entirely. -/
theorem C4_same_square_click_deselects {Pos : Type} (eng : Engine Pos) (gid : String)
    (st : GameState Pos) (c : Color) (S : String)
    (hc : st.playerColor = some c)
    (ht : eng.turn st.game = c)
    (hover : eng.isGameOver st.game = false)
    (hsel : st.selectedSquare = some S) :
    (handleSquareClick eng gid st S).1.selectedSquare = none ∧
    (handleSquareClick eng gid st S).1.view.possibleMoves = [] ∧
    (handleSquareClick eng gid st S).1.game = st.game ∧
    (handleSquareClick eng gid st S).2 = [] := by
  have hcl : handleSquareClick eng gid st S =
      ({ game := st.game
         playerColor := st.playerColor
         selectedSquare := none
         statusText := st.statusText
         movesRows := st.movesRows
         view := renderBoard eng { st with selectedSquare := none } }, []) := by
    simp only [handleSquareClick, hc, hsel, ht, hover, ne_eq, not_true_eq_false,
      if_false, Bool.false_eq_true, if_neg, if_pos]
  rw [hcl]
  exact ⟨rfl, rfl, rfl, rfl⟩

/-- C4 witness: deselecting e2 in the toy start state. -/
theorem C4_same_square_click_deselects_witness :
    (handleSquareClick toyEngine "g1" stSelected "e2").1.selectedSquare = none ∧
    (handleSquareClick toyEngine "g1" stSelected "e2").1.view.possibleMoves = [] ∧
    (handleSquareClick toyEngine "g1" stSelected "e2").1.game = stSelected.game ∧
    (handleSquareClick toyEngine "g1" stSelected "e2").2 = [] :=
  C4_same_square_click_deselects toyEngine "g1" stSelected Color.white "e2" rfl rfl rfl rfl

/-- C5: a click completing a move attempt the rules engine rejects
keeps the position, emits nothing, moves the selection cursor to the
clicked square exactly when it holds a friendly piece (clearing it
otherwise) and, when a new selection exists, marks exactly the legal
destination squares the engine reports for it. -/
theorem C5_rejected_move_reselects {Pos : Type} (eng : Engine Pos) (gid : String)
    (st : GameState Pos) (c : Color) (S Q : String)
    (hc : st.playerColor = some c)
    (ht : eng.turn st.game = c)
    (hover : eng.isGameOver st.game = false)
    (hsel : st.selectedSquare = some S)
    (hne : S ≠ Q)
    (hmv : eng.move st.game S Q "q" = none) :
    (handleSquareClick eng gid st Q).1.selectedSquare =
      (match eng.get st.game Q with
       | some p => if p.color = c then some Q else none
       | none => none) ∧
    (handleSquareClick eng gid st Q).1.game = st.game ∧
    (handleSquareClick eng gid st Q).2 = [] ∧
    (handleSquareClick eng gid st Q).1.view.possibleMoves =
      (match eng.get st.game Q with
       | some p => if p.color = c then eng.moves st.game Q else []
       | none => []) := by
  cases hget : eng.get st.game Q with
  | none =>
    have hcl : handleSquareClick eng gid st Q =
        ({ game := st.game
           playerColor := st.playerColor
           selectedSquare := none
           statusText := st.statusText
           movesRows := st.movesRows
           view := renderBoard eng { st with selectedSquare := none } }, []) := by
      simp only [handleSquareClick, hc, hsel, ht, hover, hmv, hget, ne_eq, not_true_eq_false,
        if_false, Bool.false_eq_true, if_neg, if_pos]
      simp [hne]
    rw [hcl]
    exact ⟨rfl, rfl, rfl, rfl⟩
  | some p =>
    by_cases hcol : p.color = c
    · have hcl : handleSquareClick eng gid st Q =
          (highlightPossibleMoves eng Q
            { game := st.game
              playerColor := st.playerColor
              selectedSquare := some Q
              statusText := st.statusText
              movesRows := st.movesRows
              view := renderBoard eng { st with selectedSquare := some Q } }, []) := by
        simp only [handleSquareClick, hc, hsel, ht, hover, hmv, hget, ne_eq, not_true_eq_false,
          if_false, Bool.false_eq_true, if_neg, if_pos]
        simp [hne, hcol]
      rw [hcl]
      refine ⟨by simp [highlightPossibleMoves, hget, hcol], rfl, rfl, ?_⟩
      simp [highlightPossibleMoves, hget, hcol, renderBoard]
    · have hcl : handleSquareClick eng gid st Q =
          ({ game := st.game
             playerColor := st.playerColor
             selectedSquare := none
             statusText := st.statusText
             movesRows := st.movesRows
             view := renderBoard eng { st with selectedSquare := none } }, []) := by
        simp only [handleSquareClick, hc, hsel, ht, hover, hmv, hget, ne_eq, not_true_eq_false,
          if_false, Bool.false_eq_true, if_neg, if_pos]
        simp [hne, hcol]
      rw [hcl]
      refine ⟨by simp [hget, hcol], rfl, rfl, by simp [hget, hcol, renderBoard]⟩

/-- C5 witness: with e2 selected, clicking the friendly pawn square c2
is rejected by the toy engine, reselects c2 and marks c3 and c4. -/
theorem C5_rejected_move_reselects_witness :
    (handleSquareClick toyEngine "g1" stSelected "c2").1.selectedSquare = some "c2" ∧
    (handleSquareClick toyEngine "g1" stSelected "c2").1.game = stSelected.game ∧
    (handleSquareClick toyEngine "g1" stSelected "c2").2 = [] ∧
    (handleSquareClick toyEngine "g1" stSelected "c2").1.view.possibleMoves = ["c3", "c4"] :=
  C5_rejected_move_reselects toyEngine "g1" stSelected Color.white "e2" "c2"
    rfl rfl rfl rfl (by decide) rfl

/-- C6: a confirmed resign leaves the whole controller state unchanged
and emits nothing: the updateGameStatus switch has no case for the
string resigned, so the status display does not change to any resigned
label, against the claim (the no-emission and unchanged position,
selection and colour parts hold). -/
theorem C6_resign_leaves_status_unchanged {Pos : Type} (eng : Engine Pos)
    (st : GameState Pos) :
    resignClick eng st true = (st, []) := rfl

/-- C7: the game_created handler renders a link whose href and text are
origin/game/id, unhides it, and schedules navigation to the same URL
after exactly 2000 ms. -/
theorem C7_game_created_link_and_nav (origin gameId : String) :
    (onGameCreated origin gameId).linkHref = some (origin ++ "/game/" ++ gameId) ∧
    (onGameCreated origin gameId).linkText = (onGameCreated origin gameId).linkHref ∧
    (onGameCreated origin gameId).linkHidden = false ∧
    (onGameCreated origin gameId).scheduledNavUrl = (onGameCreated origin gameId).linkHref ∧
    (onGameCreated origin gameId).scheduledNavDelayMs = some 2000 :=
  ⟨rfl, rfl, rfl, rfl, rfl⟩

/-- C8: the join click trims the input; a non-empty trimmed identifier
navigates to /game/ followed by it, with no alert and no validation of
its shape; an empty trimmed input raises the blocking alert and sets no
navigation. -/
theorem C8_join_trims_and_navigates (t : String) :
    (jsTrim t ≠ "" → joinGameClick t =
       { navigateTo := some ("/game/" ++ jsTrim t), alertMsg := none }) ∧
    (jsTrim t = "" → joinGameClick t =
       { navigateTo := none, alertMsg := some "Введите ID игры" }) := by
  constructor <;> intro h <;> simp [joinGameClick, h]

/-- C8 witness: one non-empty and one all-whitespace input. -/
theorem C8_join_trims_and_navigates_witness :
    joinGameClick " abc " = { navigateTo := some ("/game/" ++ jsTrim " abc "), alertMsg := none } ∧
    joinGameClick "  " = { navigateTo := none, alertMsg := some "Введите ID игры" } :=
  ⟨(C8_join_trims_and_navigates " abc ").1 (by decide),
   (C8_join_trims_and_navigates "  ").2 (by decide)⟩

/-- C9 counterexample: the selection invariant holds in the toy start
state, yet after the move_made push handler loads a FEN whose position
has black to move and an empty board, the cursor still names e2 and
the invariant fails: the push handlers do not clear or re-validate the
selection, against the claim that every handler preserves it. -/
theorem C9_move_made_push_breaks_invariant :
    selectionInvariant toyEngine stSelected ∧
    ¬ selectionInvariant toyEngine (onMoveMade toyEngine stSelected "fenB") := by
  constructor
  · intro s hs
    have hs2 : some "e2" = some s := hs
    injection hs2 with h
    subst h
    exact ⟨Color.white, rfl, rfl, { color := Color.white, type := "q" }, rfl, rfl⟩
  · intro hinv
    obtain ⟨c, hc, ht, p, hp, hpc⟩ := hinv "e2" rfl
    have hp2 : (none : Option Piece) = some p := hp
    exact Option.noConfusion hp2

/-- C9 amended: every click transition preserves the selection
invariant (a set cursor names a friendly-occupied square with the
local turn current); the server-push handlers that replace the
position or colour do not clear the cursor and can break it. -/
theorem C9_click_preserves_selection_invariant {Pos : Type} (eng : Engine Pos)
    (gid : String) (st : GameState Pos) (square : String)
    (hinv : selectionInvariant eng st) :
    selectionInvariant eng (handleSquareClick eng gid st square).1 := by
  unfold handleSquareClick
  cases hpc : st.playerColor with
  | none => exact hinv
  | some pc =>
    simp only []
    by_cases hturn : eng.turn st.game ≠ pc
    · simp only [if_pos hturn]
      exact hinv
    · simp only [if_neg hturn]
      have hteq : eng.turn st.game = pc := not_not.mp hturn
      by_cases hover : eng.isGameOver st.game = true
      · simp only [hover, if_pos rfl]
        exact hinv
      · simp only [Bool.not_eq_true] at hover
        simp only [hover, Bool.false_eq_true, if_neg, if_false]
        cases hsel : st.selectedSquare with
        | some sel =>
          simp only []
          by_cases hsq : sel = square
          · simp only [if_pos hsq]
            intro s hs
            exact Option.noConfusion hs
          · simp only [if_neg hsq]
            cases hmv : eng.move st.game sel square "q" with
            | some pr =>
              obtain ⟨san, p2⟩ := pr
              intro s hs
              exact Option.noConfusion hs
            | none =>
              cases hget : eng.get st.game square with
              | none =>
                simp only []
                intro s hs
                exact Option.noConfusion hs
              | some p =>
                simp only []
                by_cases hcol : p.color = pc
                · simp only [if_pos hcol]
                  intro s hs
                  have hs2 : some square = some s := hs
                  injection hs2 with hsq2
                  subst hsq2
                  exact ⟨pc, rfl, hteq, p, hget, hcol⟩
                · simp only [if_neg hcol]
                  intro s hs
                  exact Option.noConfusion hs
        | none =>
          simp only []
          cases hget : eng.get st.game square with
          | none => exact fun s hs => by rw [hsel] at hs; exact Option.noConfusion hs
          | some p =>
            simp only []
            by_cases hcol : p.color = pc
            · simp only [if_pos hcol]
              intro s hs
              have hs2 : some square = some s := hs
              injection hs2 with hsq2
              subst hsq2
              exact ⟨pc, rfl, hteq, p, hget, hcol⟩
            · simp only [if_neg hcol]
              intro s hs
              rw [hsel] at hs
              exact Option.noConfusion hs

/-- C9 witness: the invariant holds vacuously with no selection and is
preserved by a click on the enemy pawn square d7. -/
theorem C9_click_preserves_selection_invariant_witness :
    selectionInvariant toyEngine stNoSel ∧
    selectionInvariant toyEngine (handleSquareClick toyEngine "g1" stNoSel "d7").1 :=
  have h : selectionInvariant toyEngine stNoSel := fun _ hs => Option.noConfusion hs
  ⟨h, C9_click_preserves_selection_invariant toyEngine "g1" stNoSel "d7" h⟩

/-- C10: checkGameStatus tests checkmate before draw before stalemate,
so (given that the engine never classifies a checkmate position as a
draw) a position that is both a draw and a stalemate displays the draw
label, and the stalemate label can only be newly displayed when the
engine reports stalemate but neither draw nor checkmate. -/
theorem C10_draw_tested_before_stalemate {Pos : Type} (eng : Engine Pos) (p : Pos)
    (old : String) (hx : eng.isCheckmate p = true → eng.isDraw p = false) :
    (eng.isDraw p = true → eng.isStalemate p = true →
       checkGameStatus eng p old = "Ничья") ∧
    (old ≠ "Пат" → checkGameStatus eng p old = "Пат" →
       eng.isStalemate p = true ∧ eng.isDraw p = false ∧ eng.isCheckmate p = false) := by
  constructor
  · intro hd _
    have hcm : eng.isCheckmate p = false := by
      cases hcmv : eng.isCheckmate p
      · rfl
      · rw [hx hcmv] at hd
        exact absurd hd (by simp)
    simp [checkGameStatus, hcm, hd, updateGameStatus]
  · intro hold heq
    unfold checkGameStatus at heq
    cases hcm : eng.isCheckmate p with
    | true =>
      rw [hcm] at heq
      simp only [if_pos rfl] at heq
      cases ht : eng.turn p <;> simp [updateGameStatus, ht] at heq
    | false =>
      rw [hcm] at heq
      simp only [Bool.false_eq_true, if_neg] at heq
      cases hd : eng.isDraw p with
      | true =>
        rw [hd] at heq
        simp [updateGameStatus] at heq
      | false =>
        rw [hd] at heq
        simp only [Bool.false_eq_true, if_neg] at heq
        cases hs : eng.isStalemate p with
        | true => exact ⟨rfl, rfl, rfl⟩
        | false =>
          rw [hs] at heq
          simp only [Bool.false_eq_true, if_neg] at heq
          exact absurd heq hold

/-- C10 witness: toy position 2 is both a draw and a stalemate and the
displayed label is the draw label. -/
theorem C10_draw_tested_before_stalemate_witness :
    checkGameStatus toyEngine 2 "s0" = "Ничья" ∧ toyEngine.isStalemate 2 = true :=
  ⟨(C10_draw_tested_before_stalemate toyEngine 2 "s0" (by decide)).1 (by decide) (by decide),
   by decide⟩

end Dashvsm
